import Mathlib

/-!
# Tomahawk welcome widget: the bounded, time-ordered play history

A shallow embedding of `WelcomeWidget::onPlaybackFinished` and
`WelcomeWidget::checkQueries` (`src/libtomahawk/widgets/welcomewidget.cpp`).

* A `Query` carries the identity of the played track and `playedBy()`, the pair of the
  playing source and the `unsigned int` play time. Play times are only compared, never
  added or subtracted, so they are embedded as natural numbers without wrap-around.
* The rows of `m_tracksModel` are embedded as a list of queries, row 0 first; a
  `TrackModelItem*` is embedded as the query it wraps (`item->query()`).
* The widget is a record that is passed through every slot; the current time of the
  event loop is an explicit argument `now` of every slot.
* `count` is a C++ `int` and is never negative; `count - 1` is only used when `count`
  is not 0, so the subtraction of natural numbers agrees with it.
-/

namespace Tomahawk

/-- Line 39: `#define HISTORY_TRACK_ITEMS 25`. -/
def HISTORY_TRACK_ITEMS : Nat := 25

/-- Line 41: `#define HISTORY_RESOLVING_TIMEOUT 2500`. -/
def HISTORY_RESOLVING_TIMEOUT : Nat := 2500

/-- A played query: `track` is the identity of the played entity, `playedBy` is the pair
(source, play time) returned by `query->playedBy()`. -/
structure Query where
  track : Nat
  playedBy : Nat × Nat
deriving DecidableEq

/-- The rows of `m_tracksModel`, row 0 first. -/
abbrev TrackModel := List Query

namespace TrackModel

/-- Modelled from the spec: `trackCount()` of the track model, which is declared outside
this file; it is the number of events the buffer holds. -/
def trackCount (m : TrackModel) : Nat := m.length

/-- Modelled from the spec: `itemFromIndex( index( row, 0, QModelIndex() ) )` of the track
model, which is declared outside this file; it is the event stored at position `row`,
and there is none when `row` is not a position of the buffer. -/
def itemFromIndex (m : TrackModel) (row : Nat) : Option Query := m[row]?

/-- Modelled from the spec: `insert( query, row )` of the track model, which is declared
outside this file; the event is put at position `row` ("insert at head" for row 0) and
the events from that position on move one position towards the oldest end. -/
def insert (m : TrackModel) (query : Query) (row : Nat) : TrackModel :=
  m.take row ++ query :: m.drop row

/-- Modelled from the spec: `remove( row )` of the track model, which is declared outside
this file; it is the trim of the buffer, "drop the oldest element(s) until size equals
`maxSize`": the events from position `row` on, the oldest ones, are dropped and the
`row` newest events are left, as in the spec's example, where the buffer
[100,90,80,50] with the capacity 3 becomes [100,90,80]. -/
def remove (m : TrackModel) (row : Nat) : TrackModel := m.take row

end TrackModel

open TrackModel

/-- The part of a `QTimer` that the widget uses: `deadline` is the time of the next
timeout while the timer is active (armed) and `none` while it is not; `interval` is the
argument of the last `start`. -/
structure QTimer where
  interval : Nat
  deadline : Option Nat
deriving DecidableEq

namespace QTimer

/-- The method `QTimer::isActive()`. -/
def isActive (t : QTimer) : Bool := t.deadline.isSome

/-- The method `QTimer::stop()`. -/
def stop (t : QTimer) : QTimer := { t with deadline := none }

/-- The method `QTimer::start( msec )` called at time `now`: the next timeout is `msec`
later. -/
def start (_t : QTimer) (now msec : Nat) : QTimer :=
  { interval := msec, deadline := some (now + msec) }

end QTimer

/-- The state of the widget that the two slots read and write. `resolved` records the
times at which `m_tracksModel->ensureResolved()` has been called, oldest call first. -/
structure WelcomeWidget where
  m_tracksModel : TrackModel
  m_timer : QTimer
  resolved : List Nat
deriving DecidableEq

/-- The widget after its constructor (lines 75–86): an empty track model and a timer that
has not been started. -/
def WelcomeWidget.init : WelcomeWidget :=
  { m_tracksModel := [], m_timer := { interval := 0, deadline := none }, resolved := [] }

/-- Modelled from the spec: `m_tracksModel->ensureResolved()`, which is declared outside
this file; it is the "resolve pending entries" notification, recorded here with the time
at which it is emitted. The rows and their play times stay as they are. -/
def ensureResolved (w : WelcomeWidget) (now : Nat) : WelcomeWidget :=
  { w with resolved := w.resolved ++ [now] }

/-- Lines 161–168, `WelcomeWidget::checkQueries`, called at time `now`. -/
def checkQueries (w : WelcomeWidget) (now : Nat) : WelcomeWidget :=
  let timer := if w.m_timer.isActive then w.m_timer.stop else w.m_timer
  ensureResolved { w with m_timer := timer } now

/-- Lines 188–198: the `for` loop over the adjacent rows `i`, `i + 1`. The first numeric
argument is the number of iterations that are left, `count - 1 - i`; the second is `i`.
The result is the track model when the loop is left: with the query inserted at the row
`i + 1` of the first pair that passes the test of line 193 (`break`), or as it was when
no pair passes it. The last case of the `match` is never taken, since the rows `i` and
`i + 1` exist while `i < count - 1`. -/
def scanPairs (m : TrackModel) (query : Query) (playtime : Nat) : Nat → Nat → TrackModel
  | 0, _ => m
  | n + 1, i =>
    match itemFromIndex m i, itemFromIndex m (i + 1) with
    | some item1, some item2 =>
      if item1.playedBy.2 ≥ playtime ∧ item2.playedBy.2 ≤ playtime then
        insert m query (i + 1)
      else
        scanPairs m query playtime n (i + 1)
    | _, _ => m

/-- Lines 174–202: the placement of the query. `none` is the early `return` of line 181;
`some m1` is the track model when line 204 is reached. The two `none` cases of the
matches on `itemFromIndex` are never taken, since the rows `count - 1` and 0 exist when
`count` is not 0. -/
def placeQuery (m : TrackModel) (query : Query) : Option TrackModel :=
  let count := trackCount m
  let playtime := query.playedBy.2
  if count ≠ 0 then
    match itemFromIndex m (count - 1) with
    | none => none
    | some oldestItem =>
      if oldestItem.playedBy.2 ≥ playtime then
        none
      else
        match itemFromIndex m 0 with
        | none => none
        | some youngestItem =>
          if youngestItem.playedBy.2 ≤ playtime then
            some (insert m query 0)
          else
            some (scanPairs m query playtime (count - 1) 0)
  else
    some (insert m query 0)

/-- Lines 204–205 with the capacity as an argument:
`if ( trackCount() > maxSize ) remove( maxSize )`. -/
def trimHistory (maxSize : Nat) (m : TrackModel) : TrackModel :=
  if trackCount m > maxSize then remove m maxSize else m

/-- Lines 207–209: stop the timer if it is active, then start it. -/
def restartTimer (t : QTimer) (now : Nat) : QTimer :=
  (if t.isActive then t.stop else t).start now HISTORY_RESOLVING_TIMEOUT

/-- Lines 171–210 with the capacity as an argument, called at time `now`. -/
def onPlaybackFinishedWith (maxSize : Nat) (w : WelcomeWidget) (now : Nat) (query : Query) :
    WelcomeWidget :=
  match placeQuery w.m_tracksModel query with
  | none => w
  | some m1 =>
    { w with m_tracksModel := trimHistory maxSize m1, m_timer := restartTimer w.m_timer now }

/-- Lines 171–210, `WelcomeWidget::onPlaybackFinished`, called at time `now`. -/
def onPlaybackFinished (w : WelcomeWidget) (now : Nat) (query : Query) : WelcomeWidget :=
  onPlaybackFinishedWith HISTORY_TRACK_ITEMS w now query

/-- A query with identity `track` played at `time` by the source 0. -/
def played (track time : Nat) : Query := { track := track, playedBy := (0, time) }

/-- The widget with the given rows and a timer that is not active. -/
def withTracks (m : TrackModel) : WelcomeWidget := { WelcomeWidget.init with m_tracksModel := m }

/-- The timeout of `m_timer` at its deadline `d`. The timer is not single-shot: it is
armed again one interval later, and then the slot connected at line 86, `checkQueries`,
runs at time `d`. -/
def timeout (w : WelcomeWidget) (d : Nat) : WelcomeWidget :=
  checkQueries
    { w with m_timer := { w.m_timer with deadline := some (d + w.m_timer.interval) } } d

/-- The event loop, timer part: the timeouts of `m_timer` that are due up to the time
`target` are delivered, the earliest first. The first argument bounds the number of
timeouts that are delivered. -/
def deliverTimeouts : Nat → WelcomeWidget → Nat → WelcomeWidget
  | 0, w, _ => w
  | fuel + 1, w, target =>
    match w.m_timer.deadline with
    | some d => if d ≤ target then deliverTimeouts fuel (timeout w d) target else w
    | none => w

/-- The event loop over a schedule of `playbackFinished` signals (time, query), in the
order of their times, followed by idling until `horizon`. The timeouts that are due
when a signal arrives are delivered before it. -/
def runEvents (fuel : Nat) : WelcomeWidget → List (Nat × Query) → Nat → WelcomeWidget
  | w, [], horizon => deliverTimeouts fuel w horizon
  | w, (t, q) :: rest, horizon =>
    runEvents fuel (onPlaybackFinished (deliverTimeouts fuel w t) t q) rest horizon

/-- A finite sequence of `onPlaybackFinished` calls, each with its time. -/
def playbacks (w : WelcomeWidget) : List (Nat × Query) → WelcomeWidget
  | [] => w
  | (t, q) :: rest => playbacks (onPlaybackFinished w t q) rest

/-- The play times of the rows are in non-increasing order from row 0 to the last row. -/
def SortedDesc (m : TrackModel) : Prop :=
  m.Pairwise (fun a b => b.playedBy.2 ≤ a.playedBy.2)

instance (m : TrackModel) : Decidable (SortedDesc m) := by
  unfold SortedDesc; infer_instance

/-- A sorted history of `n` rows: the play times are `n`, `n - 1`, …, `1` and the row
with the play time `i` has the track `i`. -/
def history : Nat → TrackModel
  | 0 => []
  | n + 1 => played (n + 1) (n + 1) :: history n

/-! ## The pair scan -/

theorem scanPairs_spec (m : TrackModel) (query : Query) (t : Nat)
    (hlast : ∀ y, m[m.length - 1]? = some y → y.playedBy.2 < t) :
    ∀ n i, i + n + 1 = m.length → (∀ x, m[i]? = some x → t < x.playedBy.2) →
    ∃ k a b, i < k ∧ k < m.length ∧ m[k - 1]? = some a ∧ m[k]? = some b ∧
      t ≤ a.playedBy.2 ∧ b.playedBy.2 ≤ t ∧
      (∀ j x y, i ≤ j → j + 1 < k → m[j]? = some x → m[j + 1]? = some y →
        ¬ (t ≤ x.playedBy.2 ∧ y.playedBy.2 ≤ t)) ∧
      scanPairs m query t n i = insert m query k := by
  intro n
  induction n with
  | zero =>
    intro i hlen hi
    exfalso
    have hlt : i < m.length := by omega
    have hi' : m.length - 1 = i := by omega
    have h1 := hi m[i] (List.getElem?_eq_getElem hlt)
    have h2 := hlast m[i] (by rw [hi']; exact List.getElem?_eq_getElem hlt)
    omega
  | succ n ih =>
    intro i hlen hi
    have hlt : i < m.length := by omega
    have hlt1 : i + 1 < m.length := by omega
    have ha : m[i]? = some m[i] := List.getElem?_eq_getElem hlt
    have hb : m[i + 1]? = some m[i + 1] := List.getElem?_eq_getElem hlt1
    by_cases hc : m[i].playedBy.2 ≥ t ∧ m[i + 1].playedBy.2 ≤ t
    · refine ⟨i + 1, m[i], m[i + 1], by omega, hlt1, by simp [ha], hb, hc.1, hc.2, ?_, ?_⟩
      · intro j x y h1 h2; omega
      · simp only [scanPairs, itemFromIndex, ha, hb]; rw [if_pos hc]
    · have hgt : t < m[i + 1].playedBy.2 := by
        have := hi _ ha
        by_contra hcon; exact hc ⟨by omega, by omega⟩
      obtain ⟨k, a, b, hk1, hk2, hka, hkb, hta, htb, hfirst, hres⟩ :=
        ih (i + 1) (by omega) (by intro x hx; rw [hb] at hx; cases hx; exact hgt)
      refine ⟨k, a, b, by omega, hk2, hka, hkb, hta, htb, ?_, ?_⟩
      · intro j x y h1 h2 hx hy
        by_cases hj : j = i
        · subst hj; rw [ha] at hx; rw [hb] at hy; cases hx; cases hy; exact hc
        · exact hfirst j x y (by omega) h2 hx hy
      · simp only [scanPairs, itemFromIndex, ha, hb]; rw [if_neg hc]; exact hres

/-! ## The placement of the query -/

theorem insert_zero (m : TrackModel) (q : Query) : insert m q 0 = q :: m := by
  simp [TrackModel.insert]

theorem insert_cons_succ (x : Query) (m : TrackModel) (q : Query) (k : Nat) :
    insert (x :: m) q (k + 1) = x :: insert m q k := by
  simp [TrackModel.insert]

theorem length_insert (m : TrackModel) (q : Query) (k : Nat) :
    (insert m q k).length = m.length + 1 := by
  have h := congrArg List.length (List.take_append_drop k m)
  simp only [List.length_append] at h
  simp only [TrackModel.insert, List.length_append, List.length_cons]
  omega

theorem insert_row_self (m : TrackModel) (q : Query) (k : Nat) (hk : k ≤ m.length) :
    (insert m q k)[k]? = some q := by
  have hlen : (m.take k).length = k := by simp [List.length_take, hk]
  rw [TrackModel.insert, List.getElem?_append_right (by omega), hlen]
  simp

theorem insert_row_before (m : TrackModel) (q : Query) (k j : Nat) (hk : k ≤ m.length)
    (hj : j < k) : (insert m q k)[j]? = m[j]? := by
  have hlen : (m.take k).length = k := by simp [List.length_take, hk]
  rw [TrackModel.insert, List.getElem?_append_left (by omega), List.getElem?_take_of_lt hj]

theorem insert_row_after (m : TrackModel) (q : Query) (k j : Nat) (hk : k ≤ m.length)
    (hj : k ≤ j) : (insert m q k)[j + 1]? = m[j]? := by
  have hlen : (m.take k).length = k := by simp [List.length_take, hk]
  rw [TrackModel.insert, List.getElem?_append_right (by omega), hlen]
  have : j + 1 - k = (j - k) + 1 := by omega
  rw [this, List.getElem?_cons_succ, List.getElem?_drop]
  congr 1
  omega

theorem eraseIdx_insert (m : TrackModel) (q : Query) (k : Nat) (hk : k ≤ m.length) :
    (insert m q k).eraseIdx k = m := by
  have hlen : (m.take k).length = k := by simp [List.length_take, hk]
  rw [TrackModel.insert, List.eraseIdx_append_of_length_le (by omega), hlen]
  simp

theorem count_insert (m : TrackModel) (q : Query) (k : Nat) :
    (insert m q k).count q = m.count q + 1 := by
  have h := congrArg (List.count q) (List.take_append_drop k m)
  simp only [List.count_append] at h
  simp only [TrackModel.insert, List.count_append, List.count_cons_self]
  omega

theorem placeQuery_nil (q : Query) : placeQuery [] q = some [q] := by
  simp [placeQuery, trackCount, TrackModel.insert]

theorem placeQuery_stale (m : TrackModel) (q o : Query)
    (ho : m[m.length - 1]? = some o) (h : q.playedBy.2 ≤ o.playedBy.2) :
    placeQuery m q = none := by
  have hne : m.length ≠ 0 := by
    intro h0
    have : m = [] := List.length_eq_zero.mp h0
    subst this
    simp at ho
  simp only [placeQuery, trackCount, itemFromIndex, ho]
  simp [hne, h]

theorem placeQuery_head (m : TrackModel) (q o y : Query)
    (ho : m[m.length - 1]? = some o) (h : o.playedBy.2 < q.playedBy.2)
    (hy : m[0]? = some y) (hy2 : y.playedBy.2 ≤ q.playedBy.2) :
    placeQuery m q = some (q :: m) := by
  have hne : m.length ≠ 0 := by
    intro h0
    have : m = [] := List.length_eq_zero.mp h0
    subst this
    simp at ho
  have h1 : ¬ q.playedBy.2 ≤ o.playedBy.2 := by omega
  simp only [placeQuery, trackCount, itemFromIndex, ho, hy]
  simp [hne, h1, hy2, TrackModel.insert]

theorem placeQuery_scan (m : TrackModel) (q o y : Query)
    (ho : m[m.length - 1]? = some o) (h : o.playedBy.2 < q.playedBy.2)
    (hy : m[0]? = some y) (hy2 : q.playedBy.2 < y.playedBy.2) :
    ∃ k a b, 0 < k ∧ k < m.length ∧ m[k - 1]? = some a ∧ m[k]? = some b ∧
      q.playedBy.2 ≤ a.playedBy.2 ∧ b.playedBy.2 ≤ q.playedBy.2 ∧
      (∀ j x z, j + 1 < k → m[j]? = some x → m[j + 1]? = some z →
        ¬ (q.playedBy.2 ≤ x.playedBy.2 ∧ z.playedBy.2 ≤ q.playedBy.2)) ∧
      placeQuery m q = some (insert m q k) := by
  have hne : m.length ≠ 0 := by
    intro h0
    have : m = [] := List.length_eq_zero.mp h0
    subst this
    simp at ho
  have h1 : ¬ q.playedBy.2 ≤ o.playedBy.2 := by omega
  have h2 : ¬ y.playedBy.2 ≤ q.playedBy.2 := by omega
  obtain ⟨k, a, b, hk0, hk, hka, hkb, hta, htb, hfirst, hres⟩ :=
    scanPairs_spec m q q.playedBy.2
      (by intro z hz; rw [ho] at hz; cases hz; exact h)
      (m.length - 1) 0 (by omega)
      (by intro x hx; rw [hy] at hx; cases hx; exact hy2)
  refine ⟨k, a, b, hk0, hk, hka, hkb, hta, htb, ?_, ?_⟩
  · intro j x z hj hx hz
    exact hfirst j x z (Nat.zero_le j) hj hx hz
  · simp only [placeQuery, trackCount, itemFromIndex, ho, hy]
    simp [hne, h1, h2, hres]

/-- Every way in which `placeQuery` reaches line 204: the query has been inserted at
one row `k`, the row before it (if any) is not older than the query and the row after it
(if any) is not younger. -/
theorem placeQuery_some (m m1 : TrackModel) (q : Query) (h : placeQuery m q = some m1) :
    ∃ k, m1 = insert m q k ∧ k ≤ m.length ∧ (m ≠ [] → k < m.length) ∧
      (∀ a, 0 < k → m[k - 1]? = some a → q.playedBy.2 ≤ a.playedBy.2) ∧
      (∀ b, m[k]? = some b → b.playedBy.2 ≤ q.playedBy.2) := by
  rcases m with _ | ⟨x, rest⟩
  · rw [placeQuery_nil] at h
    cases h
    exact ⟨0, by simp [TrackModel.insert], by simp, by simp, by simp, by simp⟩
  · have hlt : (x :: rest).length - 1 < (x :: rest).length := by simp
    have ho := List.getElem?_eq_getElem hlt
    have hy : (x :: rest)[0]? = some x := by simp
    generalize (x :: rest)[(x :: rest).length - 1] = o at ho
    by_cases hstale : q.playedBy.2 ≤ o.playedBy.2
    · rw [placeQuery_stale _ q o ho hstale] at h
      cases h
    · by_cases hhead : x.playedBy.2 ≤ q.playedBy.2
      · rw [placeQuery_head _ q o x ho (by omega) hy hhead] at h
        cases h
        refine ⟨0, by simp [TrackModel.insert], by simp, by simp, by simp, ?_⟩
        intro b hb
        rw [hy] at hb
        cases hb
        exact hhead
      · obtain ⟨k, a, b, hk0, hk, hka, hkb, hta, htb, -, hres⟩ :=
          placeQuery_scan _ q o x ho (by omega) hy (by omega)
        rw [hres] at h
        cases h
        refine ⟨k, rfl, by omega, fun _ => hk, ?_, ?_⟩
        · intro a2 _ ha2
          rw [hka] at ha2
          cases ha2
          exact hta
        · intro b2 hb2
          rw [hkb] at hb2
          cases hb2
          exact htb

/-! ## Sortedness -/

theorem sortedDesc_insert (q : Query) :
    ∀ (m : TrackModel) (k : Nat), SortedDesc m → k ≤ m.length →
      (∀ a, 0 < k → m[k - 1]? = some a → q.playedBy.2 ≤ a.playedBy.2) →
      (∀ b, m[k]? = some b → b.playedBy.2 ≤ q.playedBy.2) →
      SortedDesc (insert m q k) := by
  intro m
  induction m with
  | nil =>
    intro k _ _ _ _
    simp [TrackModel.insert, SortedDesc]
  | cons x rest ih =>
    intro k hs hk ha hb
    have hs2 : (∀ z ∈ rest, z.playedBy.2 ≤ x.playedBy.2) ∧ SortedDesc rest := by
      simpa [SortedDesc] using hs
    rcases k with _ | k
    · rw [insert_zero]
      have hx : x.playedBy.2 ≤ q.playedBy.2 := hb x (by simp)
      refine List.Pairwise.cons ?_ hs
      intro z hz
      rcases List.mem_cons.mp hz with rfl | hz
      · exact hx
      · exact le_trans (hs2.1 z hz) hx
    · rw [insert_cons_succ]
      have hk2 : k ≤ rest.length := by simpa using hk
      have hqx : q.playedBy.2 ≤ x.playedBy.2 := by
        rcases k with _ | k
        · exact ha x (by omega) (by simp)
        · have hlt : k < rest.length := by omega
          have := ha rest[k] (by omega) (by simp [List.getElem?_eq_getElem hlt])
          exact le_trans this (hs2.1 _ (List.getElem_mem hlt))
      have ih2 := ih k hs2.2 hk2
        (by
          intro a hk0 hka
          apply ha a (by omega)
          have : k + 1 - 1 = (k - 1) + 1 := by omega
          rw [this, List.getElem?_cons_succ]
          exact hka)
        (by
          intro b hkb
          apply hb b
          rw [List.getElem?_cons_succ]
          exact hkb)
      refine List.Pairwise.cons ?_ ih2
      intro z hz
      simp only [TrackModel.insert, List.mem_append, List.mem_cons] at hz
      rcases hz with hz | rfl | hz
      · exact hs2.1 z (List.mem_of_mem_take hz)
      · exact hqx
      · exact hs2.1 z (List.mem_of_mem_drop hz)

theorem sortedDesc_trimHistory (maxSize : Nat) (m : TrackModel) (h : SortedDesc m) :
    SortedDesc (trimHistory maxSize m) := by
  unfold trimHistory
  split
  · exact List.Pairwise.sublist (List.take_sublist maxSize m) h
  · exact h

theorem sortedDesc_onPlaybackFinished (w : WelcomeWidget) (now : Nat) (q : Query)
    (h : SortedDesc w.m_tracksModel) :
    SortedDesc (onPlaybackFinished w now q).m_tracksModel := by
  unfold onPlaybackFinished onPlaybackFinishedWith
  cases hp : placeQuery w.m_tracksModel q with
  | none => simpa using h
  | some m1 =>
    obtain ⟨k, rfl, hk, -, ha, hb⟩ := placeQuery_some _ _ _ hp
    exact sortedDesc_trimHistory _ _ (sortedDesc_insert q _ k h hk ha hb)

theorem sortedDesc_playbacks (events : List (Nat × Query)) :
    ∀ w : WelcomeWidget, SortedDesc w.m_tracksModel →
      SortedDesc (playbacks w events).m_tracksModel := by
  induction events with
  | nil => intro w h; exact h
  | cons e rest ih =>
    intro w h
    exact ih _ (sortedDesc_onPlaybackFinished w e.1 e.2 h)

theorem sortedDesc_of_adjacent :
    ∀ m : TrackModel,
      (∀ i a b, m[i]? = some a → m[i + 1]? = some b → b.playedBy.2 ≤ a.playedBy.2) →
      SortedDesc m := by
  intro m
  induction m with
  | nil => intro _; simp [SortedDesc]
  | cons x rest ih =>
    intro h
    have ihr : SortedDesc rest :=
      ih (fun i a b ha hb => h (i + 1) a b (by simpa using ha) (by simpa using hb))
    refine List.Pairwise.cons ?_ ihr
    intro z hz
    rcases rest with _ | ⟨y, r⟩
    · simp at hz
    · have hyx : y.playedBy.2 ≤ x.playedBy.2 := h 0 x y (by simp) (by simp)
      rcases List.mem_cons.mp hz with rfl | hz
      · exact hyx
      · have hr : (∀ z ∈ r, z.playedBy.2 ≤ y.playedBy.2) ∧ SortedDesc r := by
          simpa [SortedDesc] using ihr
        exact le_trans (hr.1 z hz) hyx

/-- The predicate `SortedDesc` says that every row is not younger than the row before it. -/
theorem sortedDesc_iff_adjacent (m : TrackModel) :
    SortedDesc m ↔
      ∀ i a b, m[i]? = some a → m[i + 1]? = some b → b.playedBy.2 ≤ a.playedBy.2 := by
  constructor
  · intro h i a b ha hb
    obtain ⟨hi, rfl⟩ := List.getElem?_eq_some.mp ha
    obtain ⟨hi1, rfl⟩ := List.getElem?_eq_some.mp hb
    exact (List.pairwise_iff_getElem.mp h) i (i + 1) hi hi1 (Nat.lt_succ_self i)
  · exact sortedDesc_of_adjacent m

/-- In a sorted buffer a row is not younger than any row before it. -/
theorem sortedDesc_row_le (m : TrackModel) (h : SortedDesc m) (i j : Nat) (a b : Query)
    (hij : i ≤ j) (ha : m[i]? = some a) (hb : m[j]? = some b) :
    b.playedBy.2 ≤ a.playedBy.2 := by
  obtain ⟨hi, rfl⟩ := List.getElem?_eq_some.mp ha
  obtain ⟨hj, rfl⟩ := List.getElem?_eq_some.mp hb
  rcases Nat.lt_or_ge i j with hlt | hge
  · exact (List.pairwise_iff_getElem.mp h) i j hi hj hlt
  · have : i = j := by omega
    subst this
    exact le_refl _

/-! ## The trim -/

theorem trimHistory_of_le (maxSize : Nat) (m : TrackModel) (h : m.length ≤ maxSize) :
    trimHistory maxSize m = m := by
  have : ¬ m.length > maxSize := by omega
  simp [trimHistory, trackCount, this]

theorem trimHistory_of_gt (maxSize : Nat) (m : TrackModel) (h : maxSize < m.length) :
    trimHistory maxSize m = m.take maxSize := by
  simp [trimHistory, trackCount, remove, h]

theorem trimHistory_take (maxSize : Nat) (m : TrackModel) :
    trimHistory maxSize m = m.take maxSize := by
  rcases Nat.lt_or_ge maxSize m.length with hgt | hle
  · exact trimHistory_of_gt _ _ hgt
  · rw [trimHistory_of_le _ _ hle, List.take_of_length_le hle]

theorem trimHistory_eq_take (maxSize : Nat) (m : TrackModel) (_h : m.length ≤ maxSize + 1) :
    trimHistory maxSize m = m.take maxSize :=
  trimHistory_take maxSize m

theorem length_trimHistory (maxSize : Nat) (m : TrackModel) (h : m.length ≤ maxSize + 1) :
    (trimHistory maxSize m).length ≤ maxSize := by
  rw [trimHistory_eq_take _ _ h, List.length_take]
  exact Nat.min_le_left _ _

theorem tracks_onPlaybackFinished (w : WelcomeWidget) (now : Nat) (q : Query)
    (m1 : TrackModel) (h : placeQuery w.m_tracksModel q = some m1) :
    (onPlaybackFinished w now q).m_tracksModel = trimHistory HISTORY_TRACK_ITEMS m1 := by
  simp [onPlaybackFinished, onPlaybackFinishedWith, h]

theorem onPlaybackFinished_rejected (w : WelcomeWidget) (now : Nat) (q : Query)
    (h : placeQuery w.m_tracksModel q = none) : onPlaybackFinished w now q = w := by
  simp [onPlaybackFinished, onPlaybackFinishedWith, h]

theorem trackCount_onPlaybackFinished (w : WelcomeWidget) (now : Nat) (q : Query)
    (h : trackCount w.m_tracksModel ≤ HISTORY_TRACK_ITEMS) :
    trackCount (onPlaybackFinished w now q).m_tracksModel ≤ HISTORY_TRACK_ITEMS := by
  cases hp : placeQuery w.m_tracksModel q with
  | none => rw [onPlaybackFinished_rejected w now q hp]; exact h
  | some m1 =>
    obtain ⟨k, rfl, -, -, -, -⟩ := placeQuery_some _ _ _ hp
    rw [tracks_onPlaybackFinished w now q _ hp]
    apply length_trimHistory
    rw [length_insert]
    exact Nat.succ_le_succ h

theorem trackCount_playbacks (events : List (Nat × Query)) :
    ∀ w : WelcomeWidget, trackCount w.m_tracksModel ≤ HISTORY_TRACK_ITEMS →
      trackCount (playbacks w events).m_tracksModel ≤ HISTORY_TRACK_ITEMS := by
  induction events with
  | nil => intro w h; exact h
  | cons e rest ih =>
    intro w h
    exact ih _ (trackCount_onPlaybackFinished w e.1 e.2 h)

/-! ## The final buffer -/

theorem trimHistory_cons (q : Query) (m : TrackModel) :
    trimHistory HISTORY_TRACK_ITEMS (q :: m) =
      q :: (if trackCount m < 25 then m else remove m 24) := by
  by_cases h : m.length < 25
  · rw [trimHistory_of_le _ _ (by simp [HISTORY_TRACK_ITEMS]; omega)]
    simp [trackCount, h]
  · rw [trimHistory_of_gt _ _ (by simp [HISTORY_TRACK_ITEMS]; omega)]
    simp [trackCount, h, remove, HISTORY_TRACK_ITEMS]

theorem placedAtHead (w : WelcomeWidget) (now : Nat) (q : Query)
    (h : placeQuery w.m_tracksModel q = some (q :: w.m_tracksModel)) :
    (onPlaybackFinished w now q).m_tracksModel =
      trimHistory HISTORY_TRACK_ITEMS (q :: w.m_tracksModel) ∧
    (onPlaybackFinished w now q).m_tracksModel =
      q :: (if trackCount w.m_tracksModel < 25 then w.m_tracksModel
        else remove w.m_tracksModel 24) ∧
    itemFromIndex (onPlaybackFinished w now q).m_tracksModel 0 = some q ∧
    (trackCount w.m_tracksModel ≤ 25 →
      (onPlaybackFinished w now q).m_tracksModel = (q :: w.m_tracksModel).take 25) := by
  have h1 := tracks_onPlaybackFinished w now q _ h
  refine ⟨h1, by rw [h1, trimHistory_cons], by rw [h1, trimHistory_cons]; simp [itemFromIndex],
    ?_⟩
  intro hle
  rw [h1]
  exact trimHistory_eq_take _ _ (by simp [HISTORY_TRACK_ITEMS]; exact hle)

theorem final_rows (w : WelcomeWidget) (now : Nat) (q : Query) (m1 : TrackModel)
    (hp : placeQuery w.m_tracksModel q = some m1)
    (hle : trackCount w.m_tracksModel ≤ 25) :
    (onPlaybackFinished w now q).m_tracksModel = m1.take 25 ∧
    ∀ j, j < 25 → (onPlaybackFinished w now q).m_tracksModel[j]? = m1[j]? := by
  obtain ⟨k, rfl, -, -, -, -⟩ := placeQuery_some _ _ _ hp
  have h25 : (TrackModel.insert w.m_tracksModel q k).length ≤ HISTORY_TRACK_ITEMS + 1 := by
    rw [length_insert]; simpa [HISTORY_TRACK_ITEMS, trackCount] using hle
  have hf : (onPlaybackFinished w now q).m_tracksModel =
      (TrackModel.insert w.m_tracksModel q k).take 25 := by
    rw [tracks_onPlaybackFinished w now q _ hp]
    exact trimHistory_eq_take _ _ h25
  refine ⟨hf, ?_⟩
  intro j hj
  rw [hf, List.getElem?_take_of_lt hj]

theorem eq_take_append_last (l : TrackModel) (n : Nat) (o : Query)
    (hlen : l.length = n + 1) (ho : l[n]? = some o) : l = l.take n ++ [o] := by
  obtain ⟨hn, rfl⟩ := List.getElem?_eq_some.mp ho
  have h1 := List.take_append_drop n l
  have h2 : l.drop n = [l[n]] := by
    rw [List.drop_eq_getElem_cons hn, List.drop_eq_nil_of_le (by omega)]
  rw [h2] at h1
  exact h1.symm

/-! ## The debounce timer -/

theorem deadline_onPlaybackFinished (w : WelcomeWidget) (now : Nat) (q : Query)
    (m1 : TrackModel) (h : placeQuery w.m_tracksModel q = some m1) :
    (onPlaybackFinished w now q).m_timer =
      { interval := HISTORY_RESOLVING_TIMEOUT,
        deadline := some (now + HISTORY_RESOLVING_TIMEOUT) } := by
  simp [onPlaybackFinished, onPlaybackFinishedWith, h, restartTimer, QTimer.start]

theorem checkQueries_eq (w : WelcomeWidget) (now : Nat) :
    checkQueries w now =
      { m_tracksModel := w.m_tracksModel,
        m_timer := { interval := w.m_timer.interval, deadline := none },
        resolved := w.resolved ++ [now] } := by
  cases hd : w.m_timer.deadline with
  | none =>
    have : w.m_timer = { interval := w.m_timer.interval, deadline := none } := by
      rw [← hd]
    simp [checkQueries, ensureResolved, QTimer.isActive, hd]
    exact this
  | some d => simp [checkQueries, ensureResolved, QTimer.isActive, QTimer.stop, hd]

theorem deliverTimeouts_due (fuel : Nat) (w : WelcomeWidget) (d target : Nat)
    (hd : w.m_timer.deadline = some d) (hle : d ≤ target) :
    deliverTimeouts (fuel + 1) w target =
      { m_tracksModel := w.m_tracksModel,
        m_timer := { interval := w.m_timer.interval, deadline := none },
        resolved := w.resolved ++ [d] } := by
  have h1 : deliverTimeouts (fuel + 1) w target = deliverTimeouts fuel (timeout w d) target := by
    simp [deliverTimeouts, hd, hle]
  have h2 : timeout w d =
      { m_tracksModel := w.m_tracksModel,
        m_timer := { interval := w.m_timer.interval, deadline := none },
        resolved := w.resolved ++ [d] } := by
    rw [timeout, checkQueries_eq]
  rw [h1, h2]
  cases fuel with
  | zero => rfl
  | succ n => simp [deliverTimeouts]

theorem deliverTimeouts_not_due (fuel : Nat) (w : WelcomeWidget) (target : Nat)
    (h : ∀ d, w.m_timer.deadline = some d → target < d) :
    deliverTimeouts fuel w target = w := by
  cases fuel with
  | zero => rfl
  | succ n =>
    cases hd : w.m_timer.deadline with
    | none => simp [deliverTimeouts, hd]
    | some d =>
      have := h d hd
      have hn : ¬ d ≤ target := by omega
      simp [deliverTimeouts, hd, hn]

theorem onPlaybackFinished_init (now : Nat) (q1 : Query) :
    onPlaybackFinished WelcomeWidget.init now q1 =
      { m_tracksModel := [q1],
        m_timer := { interval := 2500, deadline := some (now + 2500) },
        resolved := [] } := by
  simp [onPlaybackFinished, onPlaybackFinishedWith, WelcomeWidget.init, placeQuery_nil,
    trimHistory, trackCount, HISTORY_TRACK_ITEMS, restartTimer, QTimer.start,
    HISTORY_RESOLVING_TIMEOUT]

theorem onPlaybackFinished_second (now : Nat) (q1 q2 : Query) (t : QTimer)
    (rs : List Nat) (h : q1.playedBy.2 < q2.playedBy.2) :
    onPlaybackFinished { m_tracksModel := [q1], m_timer := t, resolved := rs } now q2 =
      { m_tracksModel := [q2, q1],
        m_timer := { interval := 2500, deadline := some (now + 2500) },
        resolved := rs } := by
  have hp : placeQuery [q1] q2 = some [q2, q1] :=
    placeQuery_head [q1] q2 q1 q1 (by simp) h (by simp) (Nat.le_of_lt h)
  simp [onPlaybackFinished, onPlaybackFinishedWith, hp, trimHistory, trackCount,
    HISTORY_TRACK_ITEMS, restartTimer, QTimer.start, HISTORY_RESOLVING_TIMEOUT]

theorem runEvents_two (fuel : Nat) (q1 q2 : Query) (horizon : Nat)
    (h : q1.playedBy.2 < q2.playedBy.2) :
    runEvents fuel WelcomeWidget.init [(0, q1), (1000, q2)] horizon =
      deliverTimeouts fuel
        { m_tracksModel := [q2, q1],
          m_timer := { interval := 2500, deadline := some 3500 },
          resolved := [] } horizon := by
  have h0 : deliverTimeouts fuel WelcomeWidget.init 0 = WelcomeWidget.init :=
    deliverTimeouts_not_due _ _ _ (by intro d hd; simp [WelcomeWidget.init] at hd)
  have h1 : deliverTimeouts fuel
      { m_tracksModel := [q1], m_timer := { interval := 2500, deadline := some (0 + 2500) },
        resolved := [] } 1000 =
      { m_tracksModel := [q1], m_timer := { interval := 2500, deadline := some (0 + 2500) },
        resolved := [] } :=
    deliverTimeouts_not_due _ _ _ (by intro d hd; simp at hd; omega)
  simp only [runEvents]
  rw [h0, onPlaybackFinished_init, h1, onPlaybackFinished_second _ _ _ _ _ h]

/-! ## The claims -/

/-- C1: sortedness is an invariant of `onPlaybackFinished`. For every buffer whose play
times are in non-increasing order from row 0 to the last row and for every query, the
buffer after the call is again in non-increasing order; hence the buffer after any
finite sequence of calls that starts from the empty buffer is in non-increasing order. -/
theorem C1_sorted_invariant :
    (∀ (w : WelcomeWidget) (now : Nat) (q : Query), SortedDesc w.m_tracksModel →
      SortedDesc (onPlaybackFinished w now q).m_tracksModel) ∧
    (∀ (w : WelcomeWidget) (events : List (Nat × Query)), w.m_tracksModel = [] →
      SortedDesc (playbacks w events).m_tracksModel) :=
  ⟨sortedDesc_onPlaybackFinished,
    fun w events h => sortedDesc_playbacks events w (by rw [h]; exact List.Pairwise.nil)⟩

theorem C1_sorted_invariant_witness :
    SortedDesc (withTracks [played 1 100, played 2 80, played 3 50]).m_tracksModel ∧
    (onPlaybackFinished (withTracks [played 1 100, played 2 80, played 3 50]) 0
      (played 4 90)).m_tracksModel = [played 1 100, played 4 90, played 2 80, played 3 50] ∧
    SortedDesc (onPlaybackFinished (withTracks [played 1 100, played 2 80, played 3 50]) 0
      (played 4 90)).m_tracksModel ∧
    SortedDesc (playbacks WelcomeWidget.init
      [(0, played 1 50), (1, played 2 100), (2, played 3 80), (3, played 4 20)]).m_tracksModel :=
  ⟨by decide, by decide,
    C1_sorted_invariant.1 (withTracks [played 1 100, played 2 80, played 3 50]) 0
      (played 4 90) (by decide),
    C1_sorted_invariant.2 WelcomeWidget.init _ rfl⟩

/-- C2: the capacity bound is an invariant of `onPlaybackFinished`. For every buffer of
at most `HISTORY_TRACK_ITEMS` = 25 rows and every query the buffer after the call has at
most 25 rows; hence, starting from the empty buffer, the buffer has at most 25 rows
after each call of any finite sequence of calls. -/
theorem C2_capacity_invariant :
    HISTORY_TRACK_ITEMS = 25 ∧
    (∀ (w : WelcomeWidget) (now : Nat) (q : Query), trackCount w.m_tracksModel ≤ 25 →
      trackCount (onPlaybackFinished w now q).m_tracksModel ≤ 25) ∧
    (∀ (w : WelcomeWidget) (events : List (Nat × Query)) (n : Nat), w.m_tracksModel = [] →
      trackCount (playbacks w (events.take n)).m_tracksModel ≤ 25) :=
  ⟨rfl, trackCount_onPlaybackFinished,
    fun w events n h => trackCount_playbacks _ w (by rw [h]; exact Nat.zero_le _)⟩

theorem C2_capacity_invariant_witness :
    trackCount (withTracks (history 25)).m_tracksModel ≤ 25 ∧
    trackCount (onPlaybackFinished (withTracks (history 25)) 0
      (played 26 26)).m_tracksModel = 25 ∧
    trackCount (onPlaybackFinished (withTracks (history 25)) 0
      (played 26 26)).m_tracksModel ≤ 25 ∧
    trackCount (playbacks WelcomeWidget.init
      (List.take 2 [(0, played 1 50), (1, played 2 100), (2, played 3 80)])).m_tracksModel
        ≤ 25 :=
  ⟨by decide, by decide,
    C2_capacity_invariant.2.1 (withTracks (history 25)) 0 (played 26 26) (by decide),
    C2_capacity_invariant.2.2 WelcomeWidget.init
      [(0, played 1 50), (1, played 2 100), (2, played 3 80)] 2 rfl⟩

/-- C3: a stale query is rejected as a silent no-op. For every buffer with a last row
(so a non-empty one, of any size) and every query whose play time is less than or equal
to the play time of that oldest row, `onPlaybackFinished` returns the widget as it was:
the same rows in the same order, and also the same timer and the same notifications. -/
theorem C3_stale_rejected (w : WelcomeWidget) (now : Nat) (q o : Query)
    (ho : itemFromIndex w.m_tracksModel (trackCount w.m_tracksModel - 1) = some o)
    (h : q.playedBy.2 ≤ o.playedBy.2) :
    onPlaybackFinished w now q = w :=
  onPlaybackFinished_rejected w now q (placeQuery_stale _ q o ho h)

theorem C3_stale_rejected_witness :
    itemFromIndex (withTracks [played 1 100, played 2 80, played 3 50]).m_tracksModel
      (trackCount (withTracks [played 1 100, played 2 80, played 3 50]).m_tracksModel - 1)
      = some (played 3 50) ∧
    (played 4 50).playedBy.2 ≤ (played 3 50).playedBy.2 ∧
    onPlaybackFinished (withTracks [played 1 100, played 2 80, played 3 50]) 7 (played 4 50)
      = withTracks [played 1 100, played 2 80, played 3 50] :=
  ⟨by decide, by decide,
    C3_stale_rejected (withTracks [played 1 100, played 2 80, played 3 50]) 7 (played 4 50)
      (played 3 50) (by decide) (by decide)⟩

/-- C4: a query that is not older than the newest row goes to row 0. For every buffer
with a last row `o` and a row 0 `y` (a non-empty buffer) and every query that is not
rejected as stale (it is younger than `o`) and whose play time is greater than or equal
to the play time of `y`, the placement gives the query followed by the previous rows in
their previous order, and the trim of lines 204–205 is applied to that: the query is at
row 0 of the final buffer, which is the first 25 rows of the placement when the buffer
had at most 25 rows. This holds in particular for every non-empty buffer and every
query whose play time is greater than the play time of every row. -/
theorem C4_newest_at_head :
    (∀ (w : WelcomeWidget) (now : Nat) (q o y : Query),
      itemFromIndex w.m_tracksModel (trackCount w.m_tracksModel - 1) = some o →
      o.playedBy.2 < q.playedBy.2 →
      itemFromIndex w.m_tracksModel 0 = some y →
      y.playedBy.2 ≤ q.playedBy.2 →
        placeQuery w.m_tracksModel q = some (q :: w.m_tracksModel) ∧
        (onPlaybackFinished w now q).m_tracksModel =
          trimHistory HISTORY_TRACK_ITEMS (q :: w.m_tracksModel) ∧
        (onPlaybackFinished w now q).m_tracksModel =
          q :: (if trackCount w.m_tracksModel < 25 then w.m_tracksModel
            else remove w.m_tracksModel 24) ∧
        itemFromIndex (onPlaybackFinished w now q).m_tracksModel 0 = some q ∧
        (trackCount w.m_tracksModel ≤ 25 →
          (onPlaybackFinished w now q).m_tracksModel = (q :: w.m_tracksModel).take 25)) ∧
    (∀ (w : WelcomeWidget) (now : Nat) (q : Query),
      w.m_tracksModel ≠ [] →
      (∀ x ∈ w.m_tracksModel, x.playedBy.2 < q.playedBy.2) →
        placeQuery w.m_tracksModel q = some (q :: w.m_tracksModel) ∧
        (onPlaybackFinished w now q).m_tracksModel =
          trimHistory HISTORY_TRACK_ITEMS (q :: w.m_tracksModel) ∧
        (onPlaybackFinished w now q).m_tracksModel =
          q :: (if trackCount w.m_tracksModel < 25 then w.m_tracksModel
            else remove w.m_tracksModel 24) ∧
        itemFromIndex (onPlaybackFinished w now q).m_tracksModel 0 = some q ∧
        (trackCount w.m_tracksModel ≤ 25 →
          (onPlaybackFinished w now q).m_tracksModel = (q :: w.m_tracksModel).take 25)) := by
  constructor
  · intro w now q o y ho hns hy hnew
    have hp := placeQuery_head w.m_tracksModel q o y ho hns hy hnew
    exact ⟨hp, placedAtHead w now q hp⟩
  · intro w now q hne hmax
    have hlen : 0 < w.m_tracksModel.length := List.length_pos.mpr hne
    have hlt : w.m_tracksModel.length - 1 < w.m_tracksModel.length := by omega
    have ho := List.getElem?_eq_getElem hlt
    have hy := List.getElem?_eq_getElem hlen
    have hp := placeQuery_head w.m_tracksModel q _ _ ho (hmax _ (List.getElem_mem hlt)) hy
      (Nat.le_of_lt (hmax _ (List.getElem_mem hlen)))
    exact ⟨hp, placedAtHead w now q hp⟩

theorem C4_newest_at_head_witness :
    (itemFromIndex (withTracks (history 25)).m_tracksModel
        (trackCount (withTracks (history 25)).m_tracksModel - 1) = some (played 1 1) ∧
      (played 1 1).playedBy.2 < (played 26 25).playedBy.2 ∧
      itemFromIndex (withTracks (history 25)).m_tracksModel 0 = some (played 25 25) ∧
      (played 25 25).playedBy.2 ≤ (played 26 25).playedBy.2) ∧
    (onPlaybackFinished (withTracks (history 25)) 0 (played 26 25)).m_tracksModel =
      (played 26 25 :: history 25).take 25 ∧
    (onPlaybackFinished (withTracks (history 25)) 0 (played 26 25)).m_tracksModel =
      played 26 25 :: (history 25).take 24 ∧
    ((withTracks [played 1 100, played 2 80, played 3 50]).m_tracksModel ≠ [] ∧
      (∀ x ∈ (withTracks [played 1 100, played 2 80, played 3 50]).m_tracksModel,
        x.playedBy.2 < (played 4 101).playedBy.2)) ∧
    itemFromIndex (onPlaybackFinished (withTracks [played 1 100, played 2 80, played 3 50]) 0
      (played 4 101)).m_tracksModel 0 = some (played 4 101) :=
  ⟨by decide,
    (C4_newest_at_head.1 (withTracks (history 25)) 0 (played 26 25) (played 1 1)
      (played 25 25) (by decide) (by decide) (by decide) (by decide)).2.2.2.2 (by decide),
    by decide, by decide,
    (C4_newest_at_head.2 (withTracks [played 1 100, played 2 80, played 3 50]) 0
      (played 4 101) (by decide) (by decide)).2.2.2.1⟩

/-- C5: the middle insertion. For every sorted buffer with a last row `o` and a row 0
`y` and every query whose play time is strictly greater than the play time of `o` and
strictly less than the play time of `y`, there are adjacent rows `i`, `i + 1` holding
`a`, `b` with `a` not older and `b` not younger than the query, no adjacent rows before
them are such a pair, the placement puts the query at the row `i + 1` and keeps all
other rows in their order, and the trim of lines 204–205 is applied to that: the final
buffer is sorted and is the first 25 rows of the placement when the buffer had at most
25 rows. With the capacity 3, the buffer [100,80,50] and a query played at 90 the
placement is [100,90,80,50] and the trim gives [100,90,80]. -/
theorem C5_middle_insertion :
    (∀ (w : WelcomeWidget) (now : Nat) (q o y : Query),
      SortedDesc w.m_tracksModel →
      itemFromIndex w.m_tracksModel (trackCount w.m_tracksModel - 1) = some o →
      o.playedBy.2 < q.playedBy.2 →
      itemFromIndex w.m_tracksModel 0 = some y →
      q.playedBy.2 < y.playedBy.2 →
      ∃ i a b,
        itemFromIndex w.m_tracksModel i = some a ∧
        itemFromIndex w.m_tracksModel (i + 1) = some b ∧
        q.playedBy.2 ≤ a.playedBy.2 ∧ b.playedBy.2 ≤ q.playedBy.2 ∧
        (∀ j x z, j < i → itemFromIndex w.m_tracksModel j = some x →
          itemFromIndex w.m_tracksModel (j + 1) = some z →
          ¬ (q.playedBy.2 ≤ x.playedBy.2 ∧ z.playedBy.2 ≤ q.playedBy.2)) ∧
        placeQuery w.m_tracksModel q =
          some (w.m_tracksModel.take (i + 1) ++ q :: w.m_tracksModel.drop (i + 1)) ∧
        (onPlaybackFinished w now q).m_tracksModel = trimHistory HISTORY_TRACK_ITEMS
          (w.m_tracksModel.take (i + 1) ++ q :: w.m_tracksModel.drop (i + 1)) ∧
        SortedDesc (onPlaybackFinished w now q).m_tracksModel ∧
        (trackCount w.m_tracksModel ≤ 25 →
          (onPlaybackFinished w now q).m_tracksModel =
            (w.m_tracksModel.take (i + 1) ++ q :: w.m_tracksModel.drop (i + 1)).take 25)) ∧
    placeQuery [played 1 100, played 2 80, played 3 50] (played 4 90) =
      some [played 1 100, played 4 90, played 2 80, played 3 50] ∧
    (onPlaybackFinishedWith 3 (withTracks [played 1 100, played 2 80, played 3 50]) 0
      (played 4 90)).m_tracksModel = [played 1 100, played 4 90, played 2 80] := by
  refine ⟨?_, by decide, by decide⟩
  intro w now q o y hs ho hns hy hlt
  obtain ⟨k, a, b, hk0, hk, hka, hkb, hta, htb, hfirst, hres⟩ :=
    placeQuery_scan w.m_tracksModel q o y ho hns hy hlt
  obtain ⟨i, rfl⟩ : ∃ i, k = i + 1 := ⟨k - 1, by omega⟩
  have hf := tracks_onPlaybackFinished w now q _ hres
  refine ⟨i, a, b, by simpa [itemFromIndex] using hka, hkb, hta, htb, ?_, hres, hf,
    sortedDesc_onPlaybackFinished w now q hs, ?_⟩
  · intro j x z hj hx hz
    exact hfirst j x z (by omega) hx hz
  · intro hle
    rw [hf]
    apply trimHistory_eq_take
    rw [length_insert]
    simpa [HISTORY_TRACK_ITEMS, trackCount] using hle

theorem C5_middle_insertion_witness :
    (SortedDesc (withTracks (history 25)).m_tracksModel ∧
      itemFromIndex (withTracks (history 25)).m_tracksModel
        (trackCount (withTracks (history 25)).m_tracksModel - 1) = some (played 1 1) ∧
      (played 1 1).playedBy.2 < (played 26 24).playedBy.2 ∧
      itemFromIndex (withTracks (history 25)).m_tracksModel 0 = some (played 25 25) ∧
      (played 26 24).playedBy.2 < (played 25 25).playedBy.2) ∧
    (onPlaybackFinished (withTracks (history 25)) 0 (played 26 24)).m_tracksModel =
      played 25 25 :: played 26 24 :: (history 24).take 23 ∧
    ∃ i a b,
      itemFromIndex (withTracks (history 25)).m_tracksModel i = some a ∧
      itemFromIndex (withTracks (history 25)).m_tracksModel (i + 1) = some b ∧
      placeQuery (withTracks (history 25)).m_tracksModel (played 26 24) =
        some ((withTracks (history 25)).m_tracksModel.take (i + 1) ++
          played 26 24 :: (withTracks (history 25)).m_tracksModel.drop (i + 1)) :=
  ⟨by decide, by decide, by
    obtain ⟨i, a, b, ha, hb, -, -, -, hp, -⟩ :=
      C5_middle_insertion.1 (withTracks (history 25)) 0 (played 26 24) (played 1 1)
        (played 25 25) (by decide) (by decide) (by decide) (by decide) (by decide)
    exact ⟨i, a, b, ha, hb, hp⟩⟩

/-- C6: the trim postcondition. For every buffer, of any size, and every query that
`onPlaybackFinished` inserts (the placement reaches line 204 with one row more than the
buffer had), if the buffer has more than `HISTORY_TRACK_ITEMS` = 25 rows after the
insertion, the final buffer is exactly the first 25 rows of the buffer after the
insertion and has exactly 25 rows: the rows that are dropped are the rows from 25 on,
the oldest end of the buffer after the insertion. -/
theorem C6_trim_postcondition (w : WelcomeWidget) (now : Nat) (q : Query) (m1 : TrackModel)
    (hp : placeQuery w.m_tracksModel q = some m1)
    (hgt : trackCount m1 > HISTORY_TRACK_ITEMS) :
    trackCount m1 = trackCount w.m_tracksModel + 1 ∧
    (onPlaybackFinished w now q).m_tracksModel = m1.take 25 ∧
    trackCount (onPlaybackFinished w now q).m_tracksModel = 25 ∧
    m1 = (onPlaybackFinished w now q).m_tracksModel ++ m1.drop 25 := by
  obtain ⟨k, rfl, -, -, -, -⟩ := placeQuery_some _ _ _ hp
  have hf : (onPlaybackFinished w now q).m_tracksModel =
      (TrackModel.insert w.m_tracksModel q k).take 25 := by
    rw [tracks_onPlaybackFinished w now q _ hp]
    exact trimHistory_take _ _
  refine ⟨length_insert _ q k, hf, ?_, ?_⟩
  · simp only [trackCount, HISTORY_TRACK_ITEMS] at hgt ⊢
    rw [hf, List.length_take]
    omega
  · rw [hf]
    exact (List.take_append_drop 25 _).symm

theorem C6_trim_postcondition_witness :
    (placeQuery (withTracks (history 25)).m_tracksModel (played 26 26) =
        some (played 26 26 :: history 25) ∧
      trackCount (played 26 26 :: history 25) > HISTORY_TRACK_ITEMS) ∧
    (onPlaybackFinished (withTracks (history 25)) 0 (played 26 26)).m_tracksModel =
      played 26 26 :: (history 25).take 24 ∧
    (trackCount (played 26 26 :: history 25) =
        trackCount (withTracks (history 25)).m_tracksModel + 1 ∧
      (onPlaybackFinished (withTracks (history 25)) 0 (played 26 26)).m_tracksModel =
        (played 26 26 :: history 25).take 25 ∧
      trackCount (onPlaybackFinished (withTracks (history 25)) 0
        (played 26 26)).m_tracksModel = 25 ∧
      played 26 26 :: history 25 =
        (onPlaybackFinished (withTracks (history 25)) 0 (played 26 26)).m_tracksModel ++
          (played 26 26 :: history 25).drop 25) :=
  ⟨by decide, by decide,
    C6_trim_postcondition (withTracks (history 25)) 0 (played 26 26)
      (played 26 26 :: history 25) (by decide) (by decide)⟩

/-- C7, the claim as stated fails. On the sorted buffer [10] a query played at 10 has
the play time of a row of the buffer, but it is rejected by line 180 and is not in the
buffer afterwards. On the sorted buffer of 27 rows played at 27, …, 1 a query played at
2 is put at row 25, next to the row played at 2, and is dropped again by the trim. -/
theorem C7_counterexample_duplicate :
    (SortedDesc (withTracks [played 1 10]).m_tracksModel ∧
      (∃ x ∈ (withTracks [played 1 10]).m_tracksModel,
        x.playedBy.2 = (played 2 10).playedBy.2) ∧
      played 2 10 ∉ (onPlaybackFinished (withTracks [played 1 10]) 0
        (played 2 10)).m_tracksModel) ∧
    (SortedDesc (withTracks (history 27)).m_tracksModel ∧
      (∃ x ∈ (withTracks (history 27)).m_tracksModel,
        x.playedBy.2 = (played 99 2).playedBy.2) ∧
      placeQuery (withTracks (history 27)).m_tracksModel (played 99 2) =
        some ((history 27).take 25 ++ played 99 2 :: (history 27).drop 25) ∧
      played 99 2 ∉ (onPlaybackFinished (withTracks (history 27)) 0
        (played 99 2)).m_tracksModel) := by
  decide

/-- C7, amended: a query with the play time of a row is put next to such a row. For
every sorted buffer of at most 25 rows with the last row `o` and every query that is
younger than `o` (so it is not rejected) and whose play time is the play time of some
row of the buffer, the query is in the buffer after `onPlaybackFinished`, at a row `k`
directly before or directly after a previous row with the same play time. -/
theorem C7_duplicate_adjacent (w : WelcomeWidget) (now : Nat) (q o x : Query)
    (hs : SortedDesc w.m_tracksModel)
    (hle : trackCount w.m_tracksModel ≤ 25)
    (ho : itemFromIndex w.m_tracksModel (trackCount w.m_tracksModel - 1) = some o)
    (hns : o.playedBy.2 < q.playedBy.2)
    (hx : x ∈ w.m_tracksModel)
    (heq : x.playedBy.2 = q.playedBy.2) :
    ∃ k e, itemFromIndex (onPlaybackFinished w now q).m_tracksModel k = some q ∧
      e.playedBy.2 = q.playedBy.2 ∧
      ((itemFromIndex w.m_tracksModel k = some e ∧
          itemFromIndex (onPlaybackFinished w now q).m_tracksModel (k + 1) = some e) ∨
        (0 < k ∧ itemFromIndex w.m_tracksModel (k - 1) = some e ∧
          itemFromIndex (onPlaybackFinished w now q).m_tracksModel (k - 1) = some e)) := by
  obtain ⟨j, hj⟩ := List.mem_iff_getElem?.mp hx
  have hjlt : j < w.m_tracksModel.length := (List.getElem?_eq_some.mp hj).1
  have hpos : 0 < w.m_tracksModel.length := by omega
  have hy := List.getElem?_eq_getElem hpos
  generalize w.m_tracksModel[0] = y at hy
  simp only [itemFromIndex, trackCount] at ho hle ⊢
  by_cases hhead : y.playedBy.2 ≤ q.playedBy.2
  · have hp := placeQuery_head w.m_tracksModel q o y ho hns hy hhead
    obtain ⟨-, hget⟩ := final_rows w now q _ hp hle
    have hxy := sortedDesc_row_le _ hs 0 j y x (Nat.zero_le j) hy hj
    refine ⟨0, y, ?_, by omega, Or.inl ⟨hy, ?_⟩⟩
    · rw [hget 0 (by omega)]; simp
    · rw [hget 1 (by omega)]; simpa using hy
  · obtain ⟨k, a, b, hk0, hk, hka, hkb, hta, htb, -, hp⟩ :=
      placeQuery_scan w.m_tracksModel q o y ho hns hy (by omega)
    obtain ⟨-, hget⟩ := final_rows w now q _ hp hle
    have hkq : (onPlaybackFinished w now q).m_tracksModel[k]? = some q := by
      rw [hget k (by omega)]
      exact insert_row_self _ q k (by omega)
    by_cases hae : a.playedBy.2 = q.playedBy.2
    · refine ⟨k, a, hkq, hae, Or.inr ⟨hk0, hka, ?_⟩⟩
      rw [hget (k - 1) (by omega), insert_row_before _ q k (k - 1) (by omega) (by omega)]
      exact hka
    · have hjk : k ≤ j := by
        by_contra hcon
        have := sortedDesc_row_le _ hs j (k - 1) x a (by omega) hj hka
        omega
      have hbx := sortedDesc_row_le _ hs k j b x hjk hkb hj
      have hbe : b.playedBy.2 = q.playedBy.2 := by omega
      have hk1 : k + 1 < w.m_tracksModel.length := by
        by_contra hcon
        have hkl : w.m_tracksModel.length - 1 = k := by omega
        rw [hkl, hkb] at ho
        cases ho
        omega
      refine ⟨k, b, hkq, hbe, Or.inl ⟨hkb, ?_⟩⟩
      rw [hget (k + 1) (by omega), insert_row_after _ q k k (by omega) (le_refl k)]
      exact hkb

theorem C7_duplicate_adjacent_witness :
    (SortedDesc (withTracks [played 1 100, played 2 80, played 3 50]).m_tracksModel ∧
      trackCount (withTracks [played 1 100, played 2 80, played 3 50]).m_tracksModel ≤ 25 ∧
      itemFromIndex (withTracks [played 1 100, played 2 80, played 3 50]).m_tracksModel
        (trackCount (withTracks [played 1 100, played 2 80, played 3 50]).m_tracksModel - 1)
        = some (played 3 50) ∧
      (played 3 50).playedBy.2 < (played 4 80).playedBy.2 ∧
      played 2 80 ∈ (withTracks [played 1 100, played 2 80, played 3 50]).m_tracksModel ∧
      (played 2 80).playedBy.2 = (played 4 80).playedBy.2) ∧
    (onPlaybackFinished (withTracks [played 1 100, played 2 80, played 3 50]) 0
      (played 4 80)).m_tracksModel =
        [played 1 100, played 4 80, played 2 80, played 3 50] ∧
    ∃ k e, itemFromIndex (onPlaybackFinished
        (withTracks [played 1 100, played 2 80, played 3 50]) 0
        (played 4 80)).m_tracksModel k = some (played 4 80) ∧
      e.playedBy.2 = (played 4 80).playedBy.2 ∧
      ((itemFromIndex (withTracks [played 1 100, played 2 80, played 3 50]).m_tracksModel k
            = some e ∧
          itemFromIndex (onPlaybackFinished
            (withTracks [played 1 100, played 2 80, played 3 50]) 0
            (played 4 80)).m_tracksModel (k + 1) = some e) ∨
        (0 < k ∧
          itemFromIndex (withTracks [played 1 100, played 2 80, played 3 50]).m_tracksModel
            (k - 1) = some e ∧
          itemFromIndex (onPlaybackFinished
            (withTracks [played 1 100, played 2 80, played 3 50]) 0
            (played 4 80)).m_tracksModel (k - 1) = some e)) :=
  ⟨by decide, by decide,
    C7_duplicate_adjacent (withTracks [played 1 100, played 2 80, played 3 50]) 0
      (played 4 80) (played 3 50) (played 2 80) (by decide) (by decide) (by decide)
      (by decide) (by decide) (by decide)⟩

/-- C8: the empty buffer always accepts. For every query, whatever its play time,
`onPlaybackFinished` on the empty buffer gives the buffer with exactly that query, at
row 0; the buffer [] and a query played at 10 give [10]. -/
theorem C8_empty_accepts :
    (∀ (w : WelcomeWidget) (now : Nat) (q : Query), w.m_tracksModel = [] →
      (onPlaybackFinished w now q).m_tracksModel = [q]) ∧
    (onPlaybackFinished WelcomeWidget.init 0 (played 1 10)).m_tracksModel = [played 1 10] ∧
    (onPlaybackFinished WelcomeWidget.init 0 (played 1 0)).m_tracksModel = [played 1 0] := by
  refine ⟨?_, by decide, by decide⟩
  intro w now q h
  rw [tracks_onPlaybackFinished w now q [q] (by rw [h]; exact placeQuery_nil q)]
  exact trimHistory_of_le _ _ (by simp [HISTORY_TRACK_ITEMS])

theorem C8_empty_accepts_witness :
    (withTracks []).m_tracksModel = [] ∧
    (onPlaybackFinished (withTracks []) 5 (played 3 10)).m_tracksModel = [played 3 10] :=
  ⟨rfl, C8_empty_accepts.1 (withTracks []) 5 (played 3 10) rfl⟩

/-- C9: the debounce, with the timer as an explicit state (not active, or active with a
deadline) and the time as an argument of the slots. Every call of `onPlaybackFinished`
at the time `now` that is not rejected arms the timer with the deadline `now + 2500`
(`HISTORY_RESOLVING_TIMEOUT`), whatever the state of the timer was; `checkQueries`
leaves the timer not active and calls `ensureResolved` exactly once; so a timeout that
is due is delivered exactly once, at the deadline, and none is delivered before the
deadline. Hence two accepted queries at the times 0 and 1000 with nothing in between
give exactly one notification, at 3500: none has been given at any time before 3500, in
particular at 2500. -/
theorem C9_debounce :
    HISTORY_RESOLVING_TIMEOUT = 2500 ∧
    (∀ (w : WelcomeWidget) (now : Nat) (q : Query) (m1 : TrackModel),
      placeQuery w.m_tracksModel q = some m1 →
        (onPlaybackFinished w now q).m_timer.deadline = some (now + 2500) ∧
        (onPlaybackFinished w now q).resolved = w.resolved) ∧
    (∀ (w : WelcomeWidget) (now : Nat),
      (checkQueries w now).m_timer.deadline = none ∧
      (checkQueries w now).resolved = w.resolved ++ [now] ∧
      (checkQueries w now).m_tracksModel = w.m_tracksModel) ∧
    (∀ (fuel : Nat) (w : WelcomeWidget) (d target : Nat),
      w.m_timer.deadline = some d →
        (d ≤ target →
          (deliverTimeouts (fuel + 1) w target).resolved = w.resolved ++ [d] ∧
          (deliverTimeouts (fuel + 1) w target).m_timer.deadline = none) ∧
        (target < d → deliverTimeouts (fuel + 1) w target = w)) ∧
    (∀ (fuel : Nat) (q1 q2 : Query) (horizon : Nat),
      q1.playedBy.2 < q2.playedBy.2 →
        (horizon < 3500 →
          (runEvents (fuel + 1) WelcomeWidget.init [(0, q1), (1000, q2)] horizon).resolved
            = []) ∧
        (3500 ≤ horizon →
          (runEvents (fuel + 1) WelcomeWidget.init [(0, q1), (1000, q2)] horizon).resolved
            = [3500] ∧
          (runEvents (fuel + 1) WelcomeWidget.init [(0, q1), (1000, q2)]
            horizon).m_timer.deadline = none)) := by
  refine ⟨rfl, ?_, ?_, ?_, ?_⟩
  · intro w now q m1 hp
    rw [deadline_onPlaybackFinished w now q m1 hp]
    refine ⟨rfl, ?_⟩
    simp [onPlaybackFinished, onPlaybackFinishedWith, hp]
  · intro w now
    rw [checkQueries_eq]
    exact ⟨rfl, rfl, rfl⟩
  · intro fuel w d target hd
    constructor
    · intro hle
      rw [deliverTimeouts_due fuel w d target hd hle]
      exact ⟨rfl, rfl⟩
    · intro hlt
      apply deliverTimeouts_not_due
      intro d2 hd2
      rw [hd] at hd2
      cases hd2
      exact hlt
  · intro fuel q1 q2 horizon h
    rw [runEvents_two _ q1 q2 horizon h]
    constructor
    · intro hlt
      rw [deliverTimeouts_not_due]
      intro d hd
      simp at hd
      omega
    · intro hle
      rw [deliverTimeouts_due fuel _ 3500 horizon rfl hle]
      exact ⟨rfl, rfl⟩

theorem C9_debounce_witness :
    (placeQuery (withTracks [played 1 10]).m_tracksModel (played 2 20) =
        some [played 2 20, played 1 10] ∧
      (onPlaybackFinished (withTracks [played 1 10]) 1000 (played 2 20)).m_timer.deadline
        = some (1000 + 2500)) ∧
    ((played 1 10).playedBy.2 < (played 2 20).playedBy.2 ∧
      (runEvents 1 WelcomeWidget.init [(0, played 1 10), (1000, played 2 20)] 2500).resolved
        = [] ∧
      (runEvents 1 WelcomeWidget.init [(0, played 1 10), (1000, played 2 20)] 3500).resolved
        = [3500] ∧
      (runEvents 5 WelcomeWidget.init [(0, played 1 10), (1000, played 2 20)] 9000).resolved
        = [3500]) :=
  ⟨⟨by decide,
      (C9_debounce.2.1 (withTracks [played 1 10]) 1000 (played 2 20)
        [played 2 20, played 1 10] (by decide)).1⟩,
    by decide,
    (C9_debounce.2.2.2.2 0 (played 1 10) (played 2 20) 2500 (by decide)).1 (by decide),
    ((C9_debounce.2.2.2.2 0 (played 1 10) (played 2 20) 3500 (by decide)).2 (by decide)).1,
    ((C9_debounce.2.2.2.2 4 (played 1 10) (played 2 20) 9000 (by decide)).2 (by decide)).1⟩

/-- C10: the pair scan never loses an accepted query. For every buffer with a last row
`o`, sorted or not, and every query that is younger than `o`, the placement performs
exactly one insertion, at a row `k` that is at most `count - 1`: at row 0 when the query
is not older than row 0, and otherwise at the row `i + 1` of a pair of adjacent rows
`a`, `b` with `a` not older and `b` not younger than the query, which the loop always
finds. So the buffer before the trim has one row more, has the query at row `k` and once
more often than the buffer had it, and is the previous buffer when that row is taken
out again. With at most 25 rows before the call the final buffer is the first 25 rows
of it and still has the query at row `k`; with exactly 25 rows the row that the trim
removes is `o`. -/
theorem C10_scan_never_loses (w : WelcomeWidget) (now : Nat) (q o : Query)
    (ho : itemFromIndex w.m_tracksModel (trackCount w.m_tracksModel - 1) = some o)
    (hns : o.playedBy.2 < q.playedBy.2) :
    ∃ k, k < trackCount w.m_tracksModel ∧
      placeQuery w.m_tracksModel q =
        some (w.m_tracksModel.take k ++ q :: w.m_tracksModel.drop k) ∧
      (∀ y, itemFromIndex w.m_tracksModel 0 = some y →
        (y.playedBy.2 ≤ q.playedBy.2 → k = 0) ∧
        (q.playedBy.2 < y.playedBy.2 → ∃ i a b, k = i + 1 ∧
          itemFromIndex w.m_tracksModel i = some a ∧
          itemFromIndex w.m_tracksModel (i + 1) = some b ∧
          q.playedBy.2 ≤ a.playedBy.2 ∧ b.playedBy.2 ≤ q.playedBy.2)) ∧
      trackCount (w.m_tracksModel.take k ++ q :: w.m_tracksModel.drop k) =
        trackCount w.m_tracksModel + 1 ∧
      itemFromIndex (w.m_tracksModel.take k ++ q :: w.m_tracksModel.drop k) k = some q ∧
      (w.m_tracksModel.take k ++ q :: w.m_tracksModel.drop k).count q =
        w.m_tracksModel.count q + 1 ∧
      (w.m_tracksModel.take k ++ q :: w.m_tracksModel.drop k).eraseIdx k = w.m_tracksModel ∧
      (trackCount w.m_tracksModel ≤ 25 →
        (onPlaybackFinished w now q).m_tracksModel =
          (w.m_tracksModel.take k ++ q :: w.m_tracksModel.drop k).take 25 ∧
        itemFromIndex (onPlaybackFinished w now q).m_tracksModel k = some q ∧
        (trackCount w.m_tracksModel = 25 →
          w.m_tracksModel.take k ++ q :: w.m_tracksModel.drop k =
            (onPlaybackFinished w now q).m_tracksModel ++ [o])) := by
  have hpos : 0 < w.m_tracksModel.length := by
    rcases Nat.eq_zero_or_pos w.m_tracksModel.length with h0 | h0
    · have : w.m_tracksModel = [] := List.length_eq_zero.mp h0
      rw [this] at ho
      simp [itemFromIndex] at ho
    · exact h0
  have hy := List.getElem?_eq_getElem hpos
  generalize w.m_tracksModel[0] = y at hy
  simp only [itemFromIndex, trackCount] at ho ⊢
  -- the row of the insertion, in both branches of line 184
  have key : ∃ k, k < w.m_tracksModel.length ∧
      placeQuery w.m_tracksModel q = some (TrackModel.insert w.m_tracksModel q k) ∧
      (y.playedBy.2 ≤ q.playedBy.2 → k = 0) ∧
      (q.playedBy.2 < y.playedBy.2 → ∃ i a b, k = i + 1 ∧
        w.m_tracksModel[i]? = some a ∧ w.m_tracksModel[i + 1]? = some b ∧
        q.playedBy.2 ≤ a.playedBy.2 ∧ b.playedBy.2 ≤ q.playedBy.2) := by
    by_cases hhead : y.playedBy.2 ≤ q.playedBy.2
    · refine ⟨0, hpos, ?_, fun _ => rfl, fun h => absurd hhead (by omega)⟩
      rw [insert_zero]
      exact placeQuery_head w.m_tracksModel q o y ho hns hy hhead
    · obtain ⟨k, a, b, hk0, hk, hka, hkb, hta, htb, -, hp⟩ :=
        placeQuery_scan w.m_tracksModel q o y ho hns hy (by omega)
      refine ⟨k, hk, hp, fun h => absurd h hhead, fun _ => ⟨k - 1, a, b, by omega, hka, ?_,
        hta, htb⟩⟩
      have : k - 1 + 1 = k := by omega
      rw [this]
      exact hkb
  obtain ⟨k, hk, hp, hk0, hpair⟩ := key
  refine ⟨k, hk, hp, ?_, length_insert _ q k, insert_row_self _ q k (by omega),
    count_insert _ q k, eraseIdx_insert _ q k (by omega), ?_⟩
  · intro y2 hy2
    rw [hy] at hy2
    cases hy2
    exact ⟨hk0, hpair⟩
  · intro hle
    obtain ⟨hf, hget⟩ := final_rows w now q _ hp hle
    refine ⟨hf, ?_, ?_⟩
    · rw [hget k (by omega)]
      exact insert_row_self _ q k (by omega)
    · intro h25
      have hlast : TrackModel.insert w.m_tracksModel q k =
          (TrackModel.insert w.m_tracksModel q k).take 25 ++ [o] := by
        apply eq_take_append_last
        · rw [length_insert, h25]
        · rw [insert_row_after w.m_tracksModel q k 24 (by omega) (by omega)]
          rw [h25] at ho
          exact ho
      rw [hf]
      exact hlast

theorem C10_scan_never_loses_witness :
    (itemFromIndex (withTracks [played 1 60, played 2 90, played 3 40, played 4 70,
        played 5 10]).m_tracksModel
        (trackCount (withTracks [played 1 60, played 2 90, played 3 40, played 4 70,
          played 5 10]).m_tracksModel - 1) = some (played 5 10) ∧
      (played 5 10).playedBy.2 < (played 6 50).playedBy.2) ∧
    placeQuery (withTracks [played 1 60, played 2 90, played 3 40, played 4 70,
        played 5 10]).m_tracksModel (played 6 50) =
      some [played 1 60, played 2 90, played 6 50, played 3 40, played 4 70, played 5 10] ∧
    ∃ k, k < trackCount (withTracks [played 1 60, played 2 90, played 3 40, played 4 70,
        played 5 10]).m_tracksModel ∧
      itemFromIndex (onPlaybackFinished (withTracks [played 1 60, played 2 90, played 3 40,
        played 4 70, played 5 10]) 0 (played 6 50)).m_tracksModel k = some (played 6 50) :=
  ⟨by decide, by decide, by
    obtain ⟨k, hk, -, -, -, -, -, -, hfin⟩ :=
      C10_scan_never_loses (withTracks [played 1 60, played 2 90, played 3 40, played 4 70,
        played 5 10]) 0 (played 6 50) (played 5 10) (by decide) (by decide)
    exact ⟨k, hk, (hfin (by decide)).2.1⟩⟩

end Tomahawk
